import Mathlib

/-!
# Verification of the FIWB retrieval-and-prompt orchestration pipeline

A shallow embedding of the retrieval, grounding, prompt-construction,
source-aggregation, triage and document-store-client code of the
`fiwb-backend` repository, together with theorems settling the stated
behavioural claims.

Python conventions modelled explicitly:
* optional / nullable strings are `Option String`; Python truthiness on
  strings (`None` and `""` are falsy) is `truthy`;
* Python dictionaries with string keys are association lists
  (`Meta`); `dict.get(k)` returns `none` both when the key is absent and
  when it is present with value `None`, exactly as in Python;
* `str.strip()` is `pyStrip` (whitespace removed from both ends);
* a fallible external call (LLM completion, HTTP request) is an oracle
  argument returning `Option _`, where `none` models the call raising.
-/

namespace Fiwb

/-- Python truthiness of an optional string: `None` and `""` are falsy. -/
def truthy : Option String → Bool
  | none => false
  | some s => !(s == "")

/-- Python `a or b` on optional strings (`a` wins when truthy). -/
def pyOr (a b : Option String) : Option String :=
  if truthy a then a else b

/-- Python `a or d` with a plain-string default. -/
def pyOrD (a : Option String) (d : String) : String :=
  if truthy a then a.getD d else d

/-- Python whitespace for `str.strip()` (space, tab, newline, CR, VT, FF). -/
def isPyWs (c : Char) : Bool :=
  c == ' ' || c == '\t' || c == '\n' || c == '\r' || c == '\x0b' || c == '\x0c'

/-- `str.strip()` on the character list. -/
def pyStripList (l : List Char) : List Char :=
  ((l.dropWhile isPyWs).reverse.dropWhile isPyWs).reverse

/-- Python `str.strip()`. -/
def pyStrip (s : String) : String :=
  ⟨pyStripList s.data⟩

/-- A Python string-keyed metadata dictionary: a key may be present with a
`None` value (`some (k, none)` entry). Lookup takes the first occurrence. -/
abbrev Meta := List (String × Option String)

/-- Presence-aware lookup: `some v` iff the key is present, carrying its
(possibly null) value. -/
def metaFind : Meta → String → Option (Option String)
  | [], _ => none
  | (k, v) :: rest, key => if k == key then some v else metaFind rest key

/-- Python `dict.get(k)`: `none` when the key is absent or null-valued. -/
def metaGet (m : Meta) (k : String) : Option String :=
  (metaFind m k).join

/-- Python `k in dict`. -/
def metaHasKey (m : Meta) (k : String) : Bool :=
  (metaFind m k).isSome

/-- Python `dict[k] = v` (only lookups are ever observed downstream, so a
left-biased prepend models the assignment). -/
def metaInsert (m : Meta) (k : String) (v : Option String) : Meta :=
  (k, v) :: m

/-! ## SupermemoryClient.add_document (app/supermemory/client.py)

`clean_meta = {k: v for k, v in metadata.items() if v is not None}` followed
by the `"type"` safeguard. -/

/-- The `None`-stripping dict comprehension of `add_document`. -/
def cleanMeta (metadata : Meta) : Meta :=
  metadata.filter (fun p => p.2.isSome)

/-- The metadata actually attached to every Supermemory document write:
null values stripped, then `clean_meta["type"] = "document"` when no
`"type"` key survived. -/
def addDocumentMeta (metadata : Meta) : Meta :=
  let clean := cleanMeta metadata
  if metaHasKey clean "type" then clean else clean ++ [("type", some "document")]

/-! ## classify_query (app/intelligence/triage_agent.py) -/

/-- The closed label set of the triage agent. -/
def validCategories : List String :=
  ["academic_question", "deadline_lookup", "general_chat"]

/-- `classify_query`. `apiKeySet` models the truthiness of
`settings.OPENAI_API_KEY`; `llmResponse` is the chat-completion call,
`none` modelling the call (or response parsing) raising — the surrounding
`try/except` turns that into the `"general_chat"` fallback. A syntactically
valid response that is not one of the three labels falls back to
`"academic_question"`. -/
def classify_query (apiKeySet : Bool) (llmResponse : Option String) : String :=
  if !apiKeySet then "general_chat"
  else
    match llmResponse with
    | none => "general_chat"
    | some resp =>
        let category := pyStrip resp
        if validCategories.contains category then category else "academic_question"

/-! ## RetrievalOrchestrator._contextualize_query (app/intelligence/retrieval.py) -/

/-- One turn of short-term conversation history as passed by the API layer. -/
structure HistMsg where
  role : String
  content : String
deriving Repr, DecidableEq

/-- `history_str`: the last five turns rendered as `role: content[:300]`. -/
def historyStr (history : List HistMsg) : String :=
  String.intercalate "\n"
    ((history.drop (history.length - 5)).map
      (fun m => m.role ++ ": " ++ m.content.take 300))

/-- The rewrite prompt built by `_contextualize_query`. -/
def rewritePrompt (history : List HistMsg) (query : String) : String :=
  "Review the conversation history and the follow-up question below. \n" ++
  "Rewrite the question into a highly focused, standalone search query. \n" ++
  "Rules:\n" ++
  "1. Preserve specific keywords, product names, or core technical terms.\n" ++
  "2. Only include context from history if it is DIRECTLY RELEVANT to the new question.\n" ++
  "3. If the user is SWITCHING topics (e.g., from \x27Doubly\x27 to \x27Singly\x27), discard the old topic in the search query.\n" ++
  "4. If the question is a greeting or meta-question, return the original.\n" ++
  "\n**HISTORY:**\n" ++ historyStr history ++
  "\n\n**FOLLOW-UP QUESTION:**\n" ++ query ++
  "\n\n**STANDALONE SEARCH QUERY:**"

/-- Result of the query rewriter together with whether an LLM call was made
(the call-count observable of the spec). -/
structure RewriteResult where
  result : String
  madeCall : Bool
deriving Repr, DecidableEq

/-- `_contextualize_query`: empty history short-circuits to the original
query with no call; otherwise one LLM call whose failure (`none`) returns
the original query. `llm` is the chat-completion oracle, applied to the
built rewrite prompt. -/
def contextualize_query (llm : String → Option String) (query : String)
    (history : List HistMsg) : RewriteResult :=
  if history.isEmpty then ⟨query, false⟩
  else
    match llm (rewritePrompt history query) with
    | some content => ⟨pyStrip content, true⟩
    | none => ⟨query, true⟩

/-! ## Search results and flatten_v3 (app/intelligence/retrieval.py)

Supermemory V3 search responses: either grouped (document with nested
chunks) or flat items. Only the dictionary keys the code reads are
modelled as fields; `chunks = some _` models the Python check
`'chunks' in item and isinstance(item['chunks'], list)`. -/

structure SMChunk where
  content : Option String
  text : Option String
  metadata : Meta
deriving Repr, DecidableEq

structure SMItem where
  chunks : Option (List SMChunk)
  documentId : Option String
  itemId : Option String
  content : Option String
  text : Option String
  metadata : Meta
deriving Repr, DecidableEq

/-- A search response dict; `res.get('results') or res.get('docs') or []`
falls through empty (falsy) lists. -/
structure SMRes where
  results : Option (List SMItem)
  docs : Option (List SMItem)
deriving Repr, DecidableEq

/-- The empty response produced by the `skip()` helper: `{"results": []}`. -/
def emptyRes : SMRes := ⟨some [], none⟩

/-- Python list truthiness for optional lists. -/
def listTruthy {α : Type} : Option (List α) → Bool
  | none => false
  | some l => !l.isEmpty

/-- `res.get('results') or res.get('docs') or []`. -/
def resultsList (res : SMRes) : List SMItem :=
  if listTruthy res.results then res.results.getD []
  else if listTruthy res.docs then res.docs.getD []
  else []

/-- A flattened retrieval record: `{'content': ..., 'metadata': ...}`. -/
structure Chunk where
  content : String
  metadata : Meta
deriving Repr, DecidableEq

/-- `chunk.get('content', '') or chunk.get('text', '')`-style fallback. -/
def contentOrText (content text : Option String) : String :=
  if truthy content then content.getD "" else text.getD ""

/-- The authoritative document-level keys re-asserted by `flatten_v3`. -/
def authoritativeKeys : List String :=
  ["source_id", "title", "source_link", "course_id", "type"]

/-- The `for key in [...]: if doc_meta.get(key): merged[key] = doc_meta[key]`
pass of `flatten_v3`. -/
def forceAuthoritative (docMeta merged : Meta) : Meta :=
  authoritativeKeys.foldl
    (fun acc key =>
      if truthy (metaGet docMeta key) then metaInsert acc key (metaGet docMeta key)
      else acc)
    merged

/-- The merged metadata of one grouped chunk:
`merged = {**chunk_meta, **doc_meta}` (document level wins on every key,
modelled by a left-biased append), then `merged['documentId'] = doc_id`,
then the authoritative-key pass. -/
def mergedMetaOf (docMeta chunkMeta : Meta) (docId : Option String) : Meta :=
  forceAuthoritative docMeta (metaInsert (docMeta ++ chunkMeta) "documentId" docId)

/-- Flattening of one search item (grouped or flat branch of `flatten_v3`). -/
def flattenItem (item : SMItem) : List Chunk :=
  match item.chunks with
  | some cl =>
      let docId := pyOr item.documentId item.itemId
      cl.map (fun chunk =>
        { content := contentOrText chunk.content chunk.text,
          metadata := mergedMetaOf item.metadata chunk.metadata docId })
  | none =>
      [{ content := contentOrText item.content item.text,
         metadata := metaInsert item.metadata "documentId" (pyOr item.documentId item.itemId) }]

/-- `flatten_v3`. -/
def flatten_v3 (res : SMRes) : List Chunk :=
  (resultsList res).flatMap flattenItem

/-! ## Partition filters (retrieve_context, app/intelligence/retrieval.py)

The code only ever builds `{"AND": [leaf..., {"OR": [leaf...]}]}` payloads,
so the filter syntax is an AND list whose members are leaves or OR blocks
of leaves. -/

/-- One `{"key": k, "value": v, "negate": b}` condition. -/
structure Leaf where
  key : String
  value : String
  negate : Bool
deriving Repr, DecidableEq

/-- A member of the top-level AND list. -/
inductive FilterCond where
  | leaf (l : Leaf)
  | orBlock (ls : List Leaf)
deriving Repr, DecidableEq

/-- Modelled from the spec: the document store's evaluation of one leaf
condition against a document's metadata — equality of the metadata value
with the filter value, inverted when `negate` is set (`filters: {AND|OR
tree of {key, value, negate}}` per the external-interface section). -/
def matchesLeaf (m : Meta) (l : Leaf) : Bool :=
  if l.negate then !(metaGet m l.key == some l.value)
  else metaGet m l.key == some l.value

/-- Modelled from the spec: evaluation of an AND-list member. -/
def matchesCond (m : Meta) : FilterCond → Bool
  | .leaf l => matchesLeaf m l
  | .orBlock ls => ls.any (matchesLeaf m)

/-- Modelled from the spec: a document matches a search's filters when
every member of the AND list holds. -/
def matchesFilter (m : Meta) (conds : List FilterCond) : Bool :=
  conds.all (matchesCond m)

/-- `course_filters`. -/
def courseFilters (email : String) (courseFilter : Option String) : List FilterCond :=
  [.leaf ⟨"user_id", email, false⟩, .leaf ⟨"type", "enhanced_memory", true⟩] ++
  (if truthy courseFilter then [.leaf ⟨"course_id", courseFilter.getD "", false⟩] else [])

/-- `memory_filters`. -/
def memoryFilters (email : String) : List FilterCond :=
  [.leaf ⟨"user_id", email, false⟩, .leaf ⟨"type", "enhanced_memory", false⟩]

/-- `assistant_filters`. -/
def assistantFilters (email : String) : List FilterCond :=
  [.leaf ⟨"user_id", email, false⟩, .leaf ⟨"type", "assistant_knowledge", false⟩]

/-- `chat_filters`. -/
def chatFilters (email : String) : List FilterCond :=
  [.leaf ⟨"user_id", email, false⟩, .leaf ⟨"type", "chat_attachment", false⟩]

/-- `profile_filters`. -/
def profileFilters (email : String) : List FilterCond :=
  [.leaf ⟨"user_id", email, false⟩, .leaf ⟨"type", "user_profile", false⟩]

/-- Python `str.startswith` on the character lists. -/
def pyStartsWith (s p : String) : Bool :=
  List.isPrefixOf p.data s.data

/-- Characters matched by the `[a-zA-Z0-9_-]` class of the Drive-id regex. -/
def isDriveChar (c : Char) : Bool :=
  c.isAlpha || c.isDigit || c == '_' || c == '-'

/-- `re.search(r'([a-zA-Z0-9_-]{25,})', s)`: the scan for the first maximal
run of identifier characters of length at least 25 (leftmost match,
greedy). The fuel argument (instantiated with the list length, which each
step strictly decreases below) only makes the recursion structural. -/
def driveScan (fuel : Nat) (l : List Char) : Option (List Char) :=
  match fuel, l with
  | 0, _ => none
  | _, [] => none
  | fuel + 1, c :: rest =>
    if isDriveChar c then
      let run := c :: rest.takeWhile isDriveChar
      if 25 ≤ run.length then some run
      else driveScan fuel (rest.dropWhile isDriveChar)
    else driveScan fuel rest

/-- The fuzzy Drive-id extraction on a material id. -/
def driveIdSearch (s : String) : Option String :=
  (driveScan s.data.length s.data).map (fun l => ⟨l⟩)

/-- `focused_filters`: user scoping plus an OR block of the base id, the
fuzzy Drive id (raw and `ann_att_`-prefixed), and — when the id is
announcement-derived — a parent-announcement back-reference.
Note `material_id.replace("ann_", "")` replaces every occurrence. -/
def focusedFilters (email mid : String) : List FilterCond :=
  let orConds :=
    [(⟨"source_id", mid, false⟩ : Leaf)] ++
    (match driveIdSearch mid with
     | some did => [⟨"source_id", did, false⟩, ⟨"source_id", "ann_att_" ++ did, false⟩]
     | none => []) ++
    (let annIdOnly : Option String :=
       if pyStartsWith mid "ann_" then some (mid.replace "ann_" "") else none
     if truthy annIdOnly then [⟨"parent_announcement_id", annIdOnly.getD "", false⟩] else [])
  [.leaf ⟨"user_id", email, false⟩, .orBlock orConds]

/-! ## The parallel fan-out of retrieve_context -/

/-- One search request as handed to `SupermemoryClient.search`. -/
structure SearchCall where
  query : String
  filters : List FilterCond
  limit : Nat
deriving Repr, DecidableEq

/-- A task of the `asyncio.gather` batch: either a real network search or
the immediate `skip()` coroutine (which performs no network call and
returns `{"results": []}`). -/
inductive Task where
  | call (c : SearchCall)
  | skip
deriving Repr, DecidableEq

/-- Run one task against the document store oracle `net`. -/
def runTask (net : SearchCall → SMRes) : Task → SMRes
  | .call c => net c
  | .skip => emptyRes

/-- The six tasks of `retrieve_context`, in `asyncio.gather` order:
course, focused, memory, assistant knowledge, chat assets, profile. -/
def retrieveTasks (email searchQuery queryType : String)
    (courseFilter materialId : Option String) : List Task :=
  [ if queryType ≠ "general_chat" then
      .call ⟨searchQuery, courseFilters email courseFilter, 15⟩
    else .skip,
    if truthy materialId then
      .call ⟨searchQuery, focusedFilters email (materialId.getD ""), 25⟩
    else .skip,
    if queryType ≠ "general_chat" then
      .call ⟨searchQuery, memoryFilters email, 5⟩
    else .skip,
    if queryType ≠ "general_chat" then
      .call ⟨searchQuery, assistantFilters email, 5⟩
    else .skip,
    if queryType ≠ "general_chat" then
      .call ⟨searchQuery, chatFilters email, 5⟩
    else .skip,
    .call ⟨"User learning style preferences personal context assistant profile",
           profileFilters email, 3⟩ ]

/-- The partitioned result of `retrieve_context`. -/
structure RetrievalResult where
  course_context : List Chunk
  assistant_knowledge : List Chunk
  chat_assets : List Chunk
  memories : List Chunk
  profile : List Chunk
  rewritten_query : String
deriving Repr, DecidableEq

/-- `retrieve_context`: contextualize (only when history is non-empty),
build the task batch, gather, flatten each partition and merge the focused
results into `course_context`. -/
def retrieve_context (net : SearchCall → SMRes) (llm : String → Option String)
    (email query queryType : String) (history : List HistMsg)
    (courseFilter materialId : Option String) : RetrievalResult :=
  let searchQuery :=
    if !history.isEmpty then (contextualize_query llm query history).result else query
  let tasks := retrieveTasks email searchQuery queryType courseFilter materialId
  let rs := tasks.map (runTask net)
  { course_context := flatten_v3 (rs.getD 0 emptyRes) ++ flatten_v3 (rs.getD 1 emptyRes),
    assistant_knowledge := flatten_v3 (rs.getD 3 emptyRes),
    chat_assets := flatten_v3 (rs.getD 4 emptyRes),
    memories := flatten_v3 (rs.getD 2 emptyRes),
    profile := flatten_v3 (rs.getD 5 emptyRes),
    rewritten_query := searchQuery }

/-! ## A document store obeying the filter contract

Modelled from the spec: the vector store itself is an external collaborator
(`search(query, filters, limit) -> {results: [...]}`); it is modelled as a
list of stored documents of which the matching ones are returned (flat
shape), truncated to the limit. -/

/-- One stored document of the external store. -/
structure StoreDoc where
  docId : Option String
  content : String
  metadata : Meta
deriving Repr, DecidableEq

/-- Modelled from the spec: the store's search honours the filter tree and
the limit; ranking is irrelevant to the claims and kept as store order. -/
def smSearch (store : List StoreDoc) (c : SearchCall) : SMRes :=
  ⟨some (((store.filter (fun d => matchesFilter d.metadata c.filters)).take c.limit).map
      (fun d => ⟨none, d.docId, none, some d.content, none, d.metadata⟩)),
   none⟩

/-! ## Grounding enforcement (app/api/chat.py, `generate`)

Relational `Material` rows; the `attachments` column is stored as JSON
text and parsed with `json.loads` — it is modelled already parsed, `none`
standing for a null/empty column (the `if m.attachments else []` branch;
a parse failure skips attachment injection just like an empty list). -/

/-- The inner `a["driveFile"]["driveFile"]` dict of an attachment entry. -/
structure DriveRef where
  rid : Option String
  rfile_id : Option String
deriving Repr, DecidableEq

/-- One entry of a material's attachments JSON list. `driveFile = some _`
models presence of the `"driveFile"` key (the nested dict collapsed, with
`{}` defaults, to its id fields). -/
structure AttRef where
  aid : Option String
  afile_id : Option String
  driveFile : Option DriveRef
deriving Repr, DecidableEq

/-- A `Material` row (the columns read by the chat endpoint). -/
structure Material where
  id : String
  title : Option String
  type : Option String
  course_id : Option String
  content : Option String
  attachments : Option (List AttRef)
  source_link : Option String
deriving Repr, DecidableEq

/-- The resilient id lookup of the grounding block: exact id match first,
then — for each known prefix in order `ann_att_`, `ann_`, `drive_file_`,
skipping prefixes the id already starts with — a match of a stored row
whose id is the prefixed variant, stopping at the first hit. -/
def resolveMaterial (db : List Material) (mid : String) : Option Material :=
  match db.find? (fun r => r.id == mid) with
  | some m => some m
  | none =>
      (["ann_att_", "ann_", "drive_file_"].filter
        (fun p => !(pyStartsWith mid p))).findSome?
        (fun p => db.find? (fun r => r.id == p ++ mid))

/-- The `course_context` entry injected for the resolved primary material. -/
def primaryEntry (m : Material) : Chunk :=
  { content := m.content.getD "",
    metadata := [("title", some (pyOrD m.title "Institutional Document")),
                 ("type", m.type),
                 ("course_id", m.course_id),
                 ("id", some m.id)] }

/-- The `course_context` entry injected for a fetched attachment material
(labeled with the parent announcement's title as its course name). -/
def attachmentEntry (parent attM : Material) : Chunk :=
  { content := attM.content.getD "",
    metadata := [("title", attM.title),
                 ("type", some "attachment"),
                 ("course_name", parent.title),
                 ("source_id", some parent.id),
                 ("id", some attM.id),
                 ("source_link", attM.source_link)] }

/-- `ids_to_fetch`: for each attachment with a truthy id
(`a.get("id") or a.get("file_id")`), the raw, `ann_att_`- and
`drive_file_`-prefixed candidates. -/
def idsToFetch (atts : List AttRef) : List String :=
  atts.flatMap (fun a =>
    let fid := pyOr a.aid a.afile_id
    if truthy fid then
      [fid.getD "", "ann_att_" ++ fid.getD "", "drive_file_" ++ fid.getD ""]
    else [])

/-- The attachment materials found in the database for the fetch ids, in
database order, restricted to those with truthy content, rendered as
injection entries (each is `insert(0, ...)`-ed in turn, so the final list
order is their reverse). -/
def injectedAtts (db : List Material) (m : Material) : List Chunk :=
  ((db.filter (fun r => (idsToFetch (m.attachments.getD [])).contains r.id)).filter
    (fun r => truthy r.content)).map (attachmentEntry m)

/-- The grounding-enforcement block: when a truthy `material_id` resolves,
insert the primary material's content at the front of `course_context`
(when truthy) and then each found attachment material at the front. -/
def injectGrounding (db : List Material) (materialId : Option String)
    (ctx : List Chunk) : List Chunk :=
  if !truthy materialId then ctx
  else
    match resolveMaterial db (materialId.getD "") with
    | none => ctx
    | some m =>
        let ctx1 := if truthy m.content then primaryEntry m :: ctx else ctx
        (injectedAtts db m).reverse ++ ctx1

/-! ## PromptArchitect.build_prompt (app/intelligence/prompt_architect.py) -/

/-- Python `dict.get(k, d)`: the raw (possibly null) value when the key is
present, otherwise the default. -/
def metaGetD (m : Meta) (k d : String) : Option String :=
  match metaFind m k with
  | some v => v
  | none => some d

/-- A group of the `docs` dictionary (one rendered context block). -/
structure DocGroup where
  title : String
  course : String
  category : String
  author : Option String
  link : Option String
  chunks : List String
deriving Repr, DecidableEq

/-- `key in dict` on an ordered string-keyed dict. -/
def assocHasKey {β : Type} (l : List (String × β)) (k : String) : Bool :=
  l.any (fun p => p.1 == k)

/-- In-place mutation of the entry at a key of an ordered dict. -/
def assocUpdate {β : Type} (l : List (String × β)) (k : String) (f : β → β) :
    List (String × β) :=
  l.map (fun p => if p.1 == k then (p.1, f p.2) else p)

/-- The initial `docs` dict: the `CURRENT_DOCUMENT` group when inline
attachment text is present. -/
def initialDocs (attachmentText : Option String) : List (String × DocGroup) :=
  if truthy attachmentText then
    [("CURRENT_DOCUMENT",
      { title := "Currently Viewed Document", course := "Analysis Workspace",
        category := "PRIMARY SOURCE", author := some "Academic Faculty",
        link := none, chunks := [attachmentText.getD ""] })]
  else []

/-- One iteration of the chunk-grouping loop of `build_prompt`: skip the
focused material when its full text is already inline, otherwise group the
chunk under its document key (source id, else file name, else the
title-with-course composite). -/
def docsStep (materialId attachmentText : Option String)
    (docs : List (String × DocGroup)) (c : Chunk) : List (String × DocGroup) :=
  let meta := c.metadata
  let sourceId := pyOr (metaGet meta "source_id") (metaGet meta "documentId")
  if truthy materialId && sourceId == materialId && truthy attachmentText then docs
  else
    let baseTitle := pyOrD (pyOr (metaGet meta "title") (metaGet meta "file_name"))
      "Institutional Document"
    let courseName := pyOrD (pyOr (metaGet meta "course_name") (metaGet meta "course_id")) ""
    let uniqueName :=
      if courseName ≠ "" then baseTitle ++ " [" ++ courseName ++ "]" else baseTitle
    let k0 := pyOr sourceId (metaGet meta "file_name")
    let docKey := if truthy k0 then k0.getD "" else uniqueName
    let docs1 :=
      if assocHasKey docs docKey then docs
      else docs ++ [(docKey,
        { title := uniqueName,
          course := if courseName ≠ "" then courseName else "General Workspace",
          category := pyOrD (metaGetD meta "type" "Institutional Material")
            "Institutional Material",
          author := metaGetD meta "professor" "Academic Faculty",
          link := pyOr (metaGet meta "source_link") (metaGet meta "url"),
          chunks := [] })]
    assocUpdate docs1 docKey (fun g => { g with chunks := g.chunks ++ [c.content] })

/-- Rendering of one document group as a context block. -/
def renderDocBlock (g : DocGroup) : String :=
  let content := String.intercalate "\n\n" g.chunks
  let catLabel := g.category.toUpper
  "[" ++ catLabel ++ " | " ++ g.course ++ "]\n" ++
  "DOCUMENT: " ++ g.title ++ "\n" ++
  (if truthy g.link then "LINK: " ++ g.link.getD "" ++ "\n" else "") ++
  "CONTENT: " ++ content

/-- The rendered academic context blocks. -/
def contextBlocks (attachmentText materialId : Option String)
    (retrievedChunks : List Chunk) : List String :=
  (retrievedChunks.foldl (docsStep materialId attachmentText)
    (initialDocs attachmentText)).map (fun p => renderDocBlock p.2)

/-- `knowledge_base`: joined blocks, or the literal placeholder when no
context block exists. -/
def knowledgeBaseOf (attachmentText materialId : Option String)
    (retrievedChunks : List Chunk) : String :=
  let blocks := contextBlocks attachmentText materialId retrievedChunks
  if blocks.isEmpty then "General academic intelligence."
  else String.intercalate "\n\n---\n\n" blocks

/-- One group of the assistant-knowledge workspace dict (keys may be the
Python `None`, hence `Option String` keys). -/
structure AKDoc where
  title : String
  header : String
  chunks : List String
deriving Repr, DecidableEq

/-- Membership test for the optional-keyed workspace dict. -/
def akHasKey (l : List (Option String × AKDoc)) (k : Option String) : Bool :=
  l.any (fun p => p.1 == k)

/-- Entry mutation for the optional-keyed workspace dict. -/
def akUpdate (l : List (Option String × AKDoc)) (k : Option String)
    (f : AKDoc → AKDoc) : List (Option String × AKDoc) :=
  l.map (fun p => if p.1 == k then (p.1, f p.2) else p)

/-- One iteration of the assistant-knowledge grouping loop. (A null-valued
`category` key would crash the Python `.upper()`; values are taken to be
strings, so the default collapses absent and null alike.) -/
def akStep (docs : List (Option String × AKDoc)) (ak : Chunk) :
    List (Option String × AKDoc) :=
  let meta := ak.metadata
  let akKey := pyOr (pyOr (metaGet meta "documentId") (metaGet meta "subject"))
    (metaGet meta "id")
  let docs1 :=
    if akHasKey docs akKey then docs
    else
      let label := ((metaGetD meta "category" "INTEL").getD "INTEL").toUpper
      let subject := pyOrD (pyOr (metaGet meta "subject") (metaGet meta "title"))
        "Workspace Item"
      docs ++ [(akKey,
        { title := subject,
          header := "[" ++ label ++ " | TITLE: " ++ subject ++ "]",
          chunks := [] })]
  akUpdate docs1 akKey (fun g => { g with chunks := g.chunks ++ [ak.content] })

/-- `assistant_workspace`: grouped workspace intel plus per-file past chat
assets, or the no-context placeholder. -/
def assistantWorkspaceOf (assistantKnowledge chatAssets : List Chunk) : String :=
  let akBlocks := (assistantKnowledge.foldl akStep []).map
    (fun p => p.2.header ++ "\nCONTEXT: " ++ String.intercalate "\n" p.2.chunks)
  let assetBlocks := chatAssets.map (fun asset =>
    let fname := (metaGetD asset.metadata "file_name" "Previous Asset").getD "None"
    "[PAST ASSET | " ++ fname ++ "]\nCONTENT: " ++ asset.content)
  let blocks := akBlocks ++ assetBlocks
  if blocks.isEmpty then "No proprietary workspace context detected."
  else String.intercalate "\n\n" blocks

/-- `memory_vault`. -/
def memoryVaultOf (memories : List Chunk) : String :=
  if memories.isEmpty then "Establish prior student context."
  else String.intercalate "\n" (memories.map (fun m => "• " ++ m.content))

/-- `identity_logic`. -/
def identityLogicOf (profile : List Chunk) : String :=
  if profile.isEmpty then "Analyze learning behavior."
  else String.intercalate "\n" (profile.map (fun p => "• " ++ p.content))

/-- The `general_chat` system template. -/
def generalChatPrompt (aw kb il mv : String) : String :=
  "\n# IDENTITY: FIWB Digital Companion\n" ++
  "You are the student\x27s supportive, witty, and deeply empathetic Digital Twin. \n" ++
  "You act as a personal assistant and friend, using a warm and relatable tone.\n" ++
  "\n# PROPRIETARY WORKSPACE (Institutional Intel):\n" ++ aw ++
  "\n\n# ACADEMIC / DRIVE CONTEXT:\n" ++ kb ++
  "\n\n# COGNITIVE CONTEXT (Your Memory of User):\n" ++
  "- Learned Identity: " ++ il ++ "\n" ++
  "- Past Insights: " ++ mv ++ "\n" ++
  "\n# DIRECTIVE:\n" ++
  "1. Be empathetic and supportive. Reference their tasks or events from the workspace if relevant.\n" ++
  "2. Use **bold** for important dates or tasks.\n" ++
  "3. If referencing institutional items, use their full titles: Title [Course].\n"

/-- The `notebook_analysis` system template (no interpolations). -/
def notebookPrompt : String :=
  "\n# IDENTITY: NotebookCore — Document Analysis Engine\n" ++
  "You are a precision document analysis engine. You have DIRECT, FULL access to every document in the [ACADEMIC VAULT] below. You are currently BROWSING these documents.\n" ++
  "\n# ABSOLUTE RULES (NEVER VIOLATE):\n" ++
  "1. **SOURCE-ONLY**: You may ONLY use information from the [ACADEMIC VAULT]. NEVER use external training data. If the vault doesn\x27t contain the answer, say: \"This information is not present in the provided documents.\"\n" ++
  "2. **NO ACCESS DENIAL**: You HAVE the documents. NEVER say \"I don\x27t have access\" or \"I cannot view the PDF\". The text IS provided to you below.\n" ++
  "3. **INLINE PAGE CITATIONS**: Every factual claim MUST have an inline citation containing EXACTLY the page number from the source text, like [5] if the fact is from --- [PAGE 5] ---.\n" ++
  "4. **STRICT FORMATTING**: Do NOT build a bibliography or \x27Sources\x27 list at the bottom of your response. ONLY use the inline [n] citations directly after the text they reference.\n" ++
  "\n# CITATION FORMAT:\n" ++
  "- If a fact comes from --- [PAGE 12] ---, write it like this: \"The quantum effect was proven [12].\"\n" ++
  "- If a fact comes from --- [PAGE 3] ---, write it like this: \"It uses nested structs [3].\"\n" ++
  "- NEVER use [1], [2], [3] as a list index. The number inside the brackets MUST be the ACTUAL PAGE NUMBER from the vault.\n" ++
  "- DO NOT add a \"Sources\" section at the end. The UI will extract your inline [n] tags to generate real-time links automatically.\n" ++
  "\n# RESPONSE STRUCTURE:\n" ++
  "\n## For FIRST message / Overview requests:\n" ++
  "1. Start with **📋 Executive Summary** — 3-5 bullet points covering the document\x27s core content\n" ++
  "2. Then provide **🔑 Key Concepts** — Main topics/definitions with citations\n" ++
  "3. End with **💡 Suggested Questions** — Format as a numbered list:\n" ++
  "   ```\n" ++
  "   **💡 Dive Deeper:**\n" ++
  "   1. \"What is [specific concept from the document]?\"\n" ++
  "   2. \"Explain [another concept] in simple terms\"\n" ++
  "   3. \"What are the practical applications of [topic]?\"\n" ++
  "   4. \"How does [concept A] relate to [concept B]?\"\n" ++
  "   ```\n" ++
  "\n## For FOLLOW-UP questions:\n" ++
  "1. Answer the question directly using ONLY the vault content\n" ++
  "2. Use inline citations [n] for every claim\n" ++
  "3. Include code blocks, formulas, or diagrams if relevant\n" ++
  "4. End with 2-3 new suggested follow-up questions\n" ++
  "\n# VISUAL FORMATTING:\n" ++
  "- Use **bold** for key terms and definitions\n" ++
  "- Use `inline code` for variables, functions, code snippets\n" ++
  "- Use numbered lists for sequential processes\n" ++
  "- Use bullet points for features/properties\n" ++
  "- Use > blockquotes for direct quotes from the source\n" ++
  "- Use tables for comparisons when appropriate\n"

/-- The default (academic/Socratic) system template. -/
def academicPrompt (kb aw il mv : String) : String :=
  "\n# IDENTITY: FIWB Institutional Intelligence (FIWB-II)\n" ++
  "You are an elite academic mentor and Socratic tutor. \n" ++
  "\n# [CRITICAL] ACADEMIC VAULT (Verified Peer-Reviewed/Course Materials):\n" ++ kb ++
  "\n\n# [SECONDARY] ASSISTANT WORKSPACE (Life/Context/Workspace):\n" ++ aw ++
  "\n\n# [DIGITAL TWIN] PERSONALIZED INTELLIGENCE (Your Memory of the Student):\n" ++
  "- Student Profile & Preferences: " ++ il ++ "\n" ++
  "- Behavioral Patterns & Past Memories: " ++ mv ++ "\n" ++
  "\n# OPERATIONAL DIRECTIVES:\n" ++
  "1. **Grounded Reasoning**: PRIORITIZE the [ACADEMIC VAULT]. Quote materials directly (use \"quotation marks\").\n" ++
  "2. **Topic Precision**: ONLY use information strictly requested in the current query. Even if the retrieved context contains related topics (e.g., you see \x27Doubly\x27 but were asked for \x27Singly\x27), DISCARD the unrelated information.\n" ++
  "3. **Category Isolation**: Do NOT confuse academic materials with past chat assets.\n" ++
  "4. **Pedagogical Fidelity**: If the student asks to \"solve\", \"calculate\", \"derive\" or \"explain\", you MUST established theoretical foundations before showing the solution via a **Step-by-Step Breakdown**.\n" ++
  "5. **Citations & Grounding**: Every factual claim from a document MUST have an inline citation with the page number (e.g., [5]). \n" ++
  "6. **Suggested Inquiries**: Conclude every significant response with exactly: \"Suggested Inquiries:\" followed by 3 bulleted questions that the student can use to dive deeper into the current topic.\n" ++
  "7. **Socratic Bridge**: Explain the path to the answer and probe with a clarifying \"Bridge Question\" at the end of the text (BEFORE the Suggested Inquiries) to ensure comprehension.\n" ++
  "8. **Clean Output**: NEVER output internal tags like [PERSONAL_REASONING] or [DOCUMENTS_REFERENCED]. The UI handles sources automatically.\n" ++
  "\n# VISUAL EXCELLENCE:\n" ++
  "- Use # H1 and ## H2 for hierarchy.\n" ++
  "- Use bullet points and **bold** terminology for emphasis.\n" ++
  "- Use `inline code` for variables and formulas.\n" ++
  "- For complex solutions, use a \"Solution Architecture\" block (a bulleted list of steps).\n"

/-- Template selection keyed by query type. -/
def systemPromptOf (queryType aw kb il mv : String) : String :=
  if queryType == "general_chat" then generalChatPrompt aw kb il mv
  else if queryType == "notebook_analysis" then notebookPrompt
  else academicPrompt kb aw il mv

/-- One part of a multi-part user message. -/
inductive Part where
  | text (t : String)
  | image (url : String)
deriving Repr, DecidableEq

/-- A prompt message content: plain text or typed parts. -/
inductive MsgContent where
  | str (s : String)
  | parts (ps : List Part)
deriving Repr, DecidableEq

/-- One chat-completion message. -/
structure PromptMsg where
  role : String
  content : MsgContent
deriving Repr, DecidableEq

/-- History integration: any non-`"user"` role is rendered as
`"assistant"`. -/
def coerceRole (m : HistMsg) : PromptMsg :=
  ⟨if m.role == "user" then "user" else "assistant", .str m.content⟩

/-- `history[-10:]` appended with coerced roles (empty history appends
nothing, which coincides with mapping over the empty suffix). -/
def historyMessages (history : List HistMsg) : List PromptMsg :=
  if history.isEmpty then []
  else (history.drop (history.length - 10)).map coerceRole

/-- The parts of the final user message: grounding text first in analysis
mode, then the optional image, then the literal query text last. -/
def finalQueryParts (queryType kb : String) (base64Image : Option String)
    (userQuery : String) : List Part :=
  (if queryType == "notebook_analysis" then
     [.text ("# [CRITICAL] VITAL GROUNDING (ACADEMIC VAULT):\n" ++ kb ++ "\n\n---")]
   else []) ++
  (if truthy base64Image then [.image (base64Image.getD "")] else []) ++
  [.text userQuery]

/-- `PromptArchitect.build_prompt`. -/
def build_prompt (userQuery : String) (retrievedChunks : List Chunk)
    (assistantKnowledge chatAssets memories profile : List Chunk)
    (history : List HistMsg) (attachmentText base64Image : Option String)
    (queryType : String) (materialId : Option String) : List PromptMsg :=
  let kb := knowledgeBaseOf attachmentText materialId retrievedChunks
  let aw := assistantWorkspaceOf assistantKnowledge chatAssets
  let mv := memoryVaultOf memories
  let il := identityLogicOf profile
  ⟨"system", .str (pyStrip (systemPromptOf queryType aw kb il mv))⟩ ::
    historyMessages history ++
    [⟨"user", .parts (finalQueryParts queryType kb base64Image userQuery)⟩]

/-! ## Source broadcasting (app/api/chat.py, `generate`, sources_dict loop) -/

/-- A display-ready source card (before snippet joining). -/
structure SourceCard where
  title : String
  display : String
  link : Option String
  snippets : List String
  source_type : Option String
  material_id : Option String
deriving Repr, DecidableEq

/-- SQL `LIKE \x27%needle%\x27`: substring containment. -/
def strContains (hay needle : String) : Bool :=
  decide (List.IsInfix needle.data hay.data)

/-- The child-attachment material types of the announcement deep-link
resolution. -/
def announcementChildTypes : List String :=
  ["drive_file", "attachment", "announcement_drive_attachment"]

/-- Step 1 of announcement resolution: scan the current course context for
a child chunk referencing the announcement; when found, its (possibly
null) `id` becomes the material id. -/
def annMatIdFromCtx (courseCtx : List Chunk) (annId : String) :
    Option (Option String) :=
  (courseCtx.find? (fun other =>
     metaGet other.metadata "source_id" == some annId ||
     metaGet other.metadata "parent_announcement_id" == some annId)).map
    (fun other => metaGet other.metadata "id")

/-- Step 2: database lookup of a child attachment record whose id or
source link contains the announcement id. -/
def annMatIdFromDb (db : List Material) (annId : String) : Option String :=
  (db.find? (fun r =>
     (strContains r.id annId ||
      (match r.source_link with
       | some sl => strContains sl annId
       | none => false)) &&
     (match r.type with
      | some t => announcementChildTypes.contains t
      | none => false))).map (fun r => r.id)

/-- Step 3: the announcement row's own attachments JSON, first truthy
drive-file id (`a["driveFile"]["driveFile"]` when nested, the entry itself
otherwise; id, then file_id, then the entry's id). -/
def annMatIdFromAtts (db : List Material) (annId : String) : Option String :=
  match db.find? (fun r => r.id == annId) with
  | none => none
  | some mrec =>
    match mrec.attachments with
    | none => none
    | some atts =>
      if atts.isEmpty then none
      else
        atts.findSome? (fun a =>
          let df : DriveRef :=
            match a.driveFile with
            | some d => d
            | none => ⟨a.aid, a.afile_id⟩
          let fid := pyOr (pyOr df.rid df.rfile_id) a.aid
          if truthy fid then some (fid.getD "") else none)

/-- The resolved material id of one broadcast item: `id` falling back to
`source_id`, refined for announcement-typed chunks through the three
best-effort resolution steps. -/
def computeMatId (db : List Material) (courseCtx : List Chunk) (meta : Meta) :
    Option String :=
  let matId := pyOr (metaGet meta "id") (metaGet meta "source_id")
  if metaGet meta "type" == some "announcement" then
    let annId := metaGet meta "id"
    if truthy annId then
      let aid := annId.getD ""
      match annMatIdFromCtx courseCtx aid with
      | some v => v
      | none =>
        match annMatIdFromDb db aid with
        | some i => some i
        | none =>
          match annMatIdFromAtts db aid with
          | some f => some f
          | none => matId
    else matId
  else matId

/-- The deduplication key (`full_title`) and resolved material id of one
broadcast item, including the generic-title database recovery. (A null
database title renders as the f-string `"None"`.) -/
def computeTitleKey (db : List Material) (courseCtx : List Chunk) (meta : Meta) :
    String × Option String :=
  let courseName := pyOrD (pyOr (metaGet meta "course_name") (metaGet meta "course_id")) ""
  let baseTitle := pyOrD (metaGet meta "title")
    (pyOrD (metaGet meta "file_name") "Institutional Document")
  let fullTitle :=
    if courseName ≠ "" then baseTitle ++ " [" ++ courseName ++ "]" else baseTitle
  let matId := computeMatId db courseCtx meta
  if !truthy (metaGet meta "title") ||
     metaGet meta "title" == some "Institutional Document" then
    match matId with
    | none => (fullTitle, matId)
    | some i =>
      match db.find? (fun r => r.id == i) with
      | some r =>
        let bt := r.title.getD "None"
        ((if courseName ≠ "" then bt ++ " [" ++ courseName ++ "]" else bt), matId)
      | none => (fullTitle, matId)
  else (fullTitle, matId)

/-- `meta.get("source_link") or meta.get("url") or meta.get("webViewLink")
or meta.get("link")`. -/
def linkOf (meta : Meta) : Option String :=
  pyOr (pyOr (pyOr (metaGet meta "source_link") (metaGet meta "url"))
    (metaGet meta "webViewLink")) (metaGet meta "link")

/-- One iteration of the sources_dict loop: first occurrence of a key
creates the card with one snippet; a repeated key only appends the snippet
while fewer than 3 are present. -/
def sourcesStep (db : List Material) (courseCtx : List Chunk) (pfx : String)
    (sources : List (String × SourceCard)) (item : Chunk) :
    List (String × SourceCard) :=
  let meta := item.metadata
  let tk := computeTitleKey db courseCtx meta
  if assocHasKey sources tk.1 then
    assocUpdate sources tk.1 (fun card =>
      if card.snippets.length < 3 then
        { card with snippets := card.snippets ++ [item.content] }
      else card)
  else
    sources ++ [(tk.1,
      { title := tk.1, display := pfx ++ tk.1, link := linkOf meta,
        snippets := [item.content],
        source_type := metaGetD meta "type" "document",
        material_id := tk.2 })]

/-- The full sources_dict build over the four broadcast categories in
iteration order, each with its display prefix. -/
def aggregateSources (db : List Material)
    (courseContext assistantKnowledge chatAssets memories : List Chunk) :
    List (String × SourceCard) :=
  [("📚 ", courseContext), ("📧 ", assistantKnowledge),
   ("📎 ", chatAssets), ("🧠 ", memories)].foldl
    (fun acc pc => pc.2.foldl (sourcesStep db courseContext pc.1) acc) []

/-- A finalized source: snippets joined (empty ones dropped) into one
snippet field. -/
structure FinalSource where
  title : String
  display : String
  link : Option String
  snippet : String
  source_type : Option String
  material_id : Option String
deriving Repr, DecidableEq

/-- The `final_sources` conversion. -/
def finalizeSources (cards : List (String × SourceCard)) : List FinalSource :=
  cards.map (fun p =>
    ⟨p.2.title, p.2.display, p.2.link,
     String.intercalate "\n--- [Next Section] ---\n"
       (p.2.snippets.filter (fun s => !(s == ""))),
     p.2.source_type, p.2.material_id⟩)

/-! ## The spec's stated metadata merge rule (for refinement comparison)

The spec describes the grouped-result merge as: "chunk-level metadata as
base, overwritten by document-level metadata for a fixed set of
authoritative keys — document-level values win on conflict". This
definition follows the spec's words (not the code) so the two can be
compared. -/

/-- The merged value at a key under the spec's stated rule: the
document-level entry only for authoritative keys it defines, the
chunk-level entry for every other key. -/
def specAuthoritativeMerge (chunkMeta docMeta : Meta) (k : String) :
    Option (Option String) :=
  if authoritativeKeys.contains k && (metaFind docMeta k).isSome then
    metaFind docMeta k
  else metaFind chunkMeta k

/-! ## Helper lemmas -/

lemma metaFind_append (a b : Meta) (k : String) :
    metaFind (a ++ b) k = (metaFind a k <|> metaFind b k) := by
  induction a with
  | nil => simp [metaFind]
  | cons p rest ih =>
      obtain ⟨k', v'⟩ := p
      by_cases h : (k' == k) = true
      · simp [metaFind, h]
      · simp only [Bool.not_eq_true] at h
        simp [metaFind, h, ih]

lemma metaFind_insert_self (m : Meta) (k : String) (v : Option String) :
    metaFind (metaInsert m k v) k = some v := by
  simp [metaFind, metaInsert]

lemma metaFind_insert_ne (m : Meta) (k k' : String) (v : Option String)
    (h : k' ≠ k) : metaFind (metaInsert m k v) k' = metaFind m k' := by
  have hb : (k == k') = false := beq_eq_false_iff_ne.mpr (Ne.symm h)
  simp [metaFind, metaInsert, hb]

lemma metaGet_insert_ne (m : Meta) (k k' : String) (v : Option String)
    (h : k' ≠ k) : metaGet (metaInsert m k v) k' = metaGet m k' := by
  simp [metaGet, metaFind_insert_ne m k k' v h]

lemma metaFind_of_all_isSome (m : Meta) (k : String) (v : Option String)
    (hall : ∀ p ∈ m, p.2.isSome = true) (h : metaFind m k = some v) :
    v.isSome = true := by
  induction m with
  | nil => simp [metaFind] at h
  | cons p rest ih =>
      by_cases hk : (p.1 == k) = true
      · simp [metaFind, hk] at h
        exact h ▸ hall p (List.mem_cons_self p rest)
      · simp only [Bool.not_eq_true] at hk
        simp [metaFind, hk] at h
        exact ih (fun q hq => hall q (List.mem_cons_of_mem p hq)) h

lemma pyStrip_ne_empty (s : String) (c : Char) (hc : c ∈ s.data)
    (hw : isPyWs c = false) : pyStrip s ≠ "" := by
  intro hemp
  have hdata : pyStripList s.data = [] := congrArg String.data hemp
  have h1 : ((s.data.dropWhile isPyWs).reverse.dropWhile isPyWs).reverse = [] := hdata
  rw [List.reverse_eq_nil_iff] at h1
  have h2 : ∀ x ∈ (s.data.dropWhile isPyWs).reverse, isPyWs x = true :=
    List.dropWhile_eq_nil_iff.mp h1
  have h3 : ∀ x ∈ s.data.dropWhile isPyWs, isPyWs x = true := by
    intro x hx
    exact h2 x (List.mem_reverse.mpr hx)
  have hsplit := List.takeWhile_append_dropWhile isPyWs s.data
  rw [← hsplit] at hc
  rcases List.mem_append.mp hc with h | h
  · exact absurd (List.mem_takeWhile_imp h) (by simp [hw])
  · exact absurd (h3 c h) (by simp [hw])

lemma historyMessages_eq (history : List HistMsg) :
    historyMessages history = (history.drop (history.length - 10)).map coerceRole := by
  cases history with
  | nil => simp [historyMessages]
  | cons h t => simp [historyMessages]

lemma resultsList_some (l : List SMItem) : resultsList ⟨some l, none⟩ = l := by
  by_cases h : l.isEmpty
  · simp [resultsList, listTruthy, h]
    exact List.isEmpty_iff.mp h
  · simp [resultsList, listTruthy, h]

lemma flatten_emptyRes : flatten_v3 emptyRes = [] := rfl

/-! ## C10 -/

/-- C10: every document written through `SupermemoryClient.add_document`
carries a `"type"` metadata key — null-valued entries are stripped, every
surviving value is an actual string, and when no `"type"` key survives the
default `"document"` is set, so no document is stored with a missing or
null type tag. -/
theorem c10_add_document_type_invariant (metadata : Meta) :
    (∃ v, metaGet (addDocumentMeta metadata) "type" = some v) ∧
    (∀ p ∈ addDocumentMeta metadata, p.2.isSome = true) ∧
    (metaHasKey (cleanMeta metadata) "type" = false →
      metaGet (addDocumentMeta metadata) "type" = some "document") := by
  have hall : ∀ p ∈ cleanMeta metadata, p.2.isSome = true := by
    intro p hp
    exact (List.mem_filter.mp hp).2
  by_cases h : metaHasKey (cleanMeta metadata) "type" = true
  · refine ⟨?_, ?_, ?_⟩
    · obtain ⟨v, hv⟩ := Option.isSome_iff_exists.mp h
      have hvs : v.isSome = true := metaFind_of_all_isSome _ _ _ hall hv
      obtain ⟨w, hw⟩ := Option.isSome_iff_exists.mp hvs
      refine ⟨w, ?_⟩
      simp [addDocumentMeta, h, metaGet, hv, hw]
    · intro p hp
      simp only [addDocumentMeta, h, if_true] at hp
      exact hall p hp
    · intro hcon
      rw [h] at hcon
      exact absurd hcon (by simp)
  · simp only [Bool.not_eq_true] at h
    have hfind : metaFind (cleanMeta metadata) "type" = none := by
      have := h
      unfold metaHasKey at this
      exact Option.not_isSome_iff_eq_none.mp (by simp [this])
    have hget : metaGet (addDocumentMeta metadata) "type" = some "document" := by
      simp only [addDocumentMeta, h, if_false, Bool.false_eq_true]
      simp [metaGet, metaFind_append, hfind, metaFind]
    refine ⟨⟨"document", hget⟩, ?_, fun _ => hget⟩
    intro p hp
    simp only [addDocumentMeta, h, if_false, Bool.false_eq_true] at hp
    rcases List.mem_append.mp hp with hpm | hpm
    · exact hall p hpm
    · simp at hpm
      simp [hpm]

/-- C10 witness: at a concrete metadata dict whose `"type"` entry is null,
the entry is stripped and the default is set. -/
theorem c10_witness :
    metaGet (addDocumentMeta [("type", none), ("user_id", some "u")]) "type" =
      some "document" :=
  (c10_add_document_type_invariant [("type", none), ("user_id", some "u")]).2.2 rfl

/-! ## C8 -/

/-- C8: `classify_query` always returns one of the three labels; an
invalid or unparseable label from the LLM falls back to
`academic_question`, while an error of the call itself (modelled by the
`none` response, absorbed by the local `try/except`) falls back to
`general_chat` and never propagates. -/
theorem c8_classifier_fallbacks :
    (∀ (k : Bool) (r : Option String),
       validCategories.contains (classify_query k r) = true) ∧
    (classify_query true none = "general_chat") ∧
    (∀ s, validCategories.contains (pyStrip s) = false →
       classify_query true (some s) = "academic_question") := by
  refine ⟨?_, rfl, ?_⟩
  · intro k r
    cases k with
    | false => simp [classify_query, validCategories]
    | true =>
        cases r with
        | none => simp [classify_query, validCategories]
        | some s =>
            by_cases h : pyStrip s ∈ validCategories
            · simp [classify_query, h]
            · have h2 : ¬(pyStrip s = "academic_question" ∨
                  pyStrip s = "deadline_lookup" ∨ pyStrip s = "general_chat") := by
                simpa [validCategories] using h
              simp [classify_query, validCategories, h2]
  · intro s h
    have h' : ¬ pyStrip s ∈ validCategories := by simpa using h
    simp [classify_query, h']

/-- C8 witness: the concrete invalid label `"banana"` falls back to
`academic_question`. -/
theorem c8_witness :
    classify_query true (some "banana") = "academic_question" :=
  c8_classifier_fallbacks.2.2 "banana" (by rfl)

/-! ## C7 -/

/-- C7: the query rewriter returns the query unchanged with no LLM call
whenever history is empty, and on any failure of the LLM call it returns
the original query unmodified. -/
theorem c7_rewrite_short_circuit (llm : String → Option String) (q : String) :
    contextualize_query llm q [] = ⟨q, false⟩ ∧
    (∀ history : List HistMsg,
       llm (rewritePrompt history q) = none →
       (contextualize_query llm q history).result = q) := by
  refine ⟨rfl, ?_⟩
  intro history hfail
  by_cases h : history.isEmpty
  · simp [contextualize_query, h]
  · simp [contextualize_query, h, hfail]

/-- C7 witness: a failing LLM oracle leaves a concrete query unchanged
even with non-empty history. -/
theorem c7_witness :
    (contextualize_query (fun _ => none) "what is recursion"
      [⟨"user", "hello"⟩]).result = "what is recursion" :=
  (c7_rewrite_short_circuit (fun _ => none) "what is recursion").2
    [⟨"user", "hello"⟩] rfl

/-! ## C2 -/

/-- C2: for every `retrieve_context` call with `query_type ==
"general_chat"`, the course, memory, workspace-knowledge and session-asset
tasks are the immediate `skip()` (no network call, `{"results": []}`),
the profile search task is issued with its search call for every query
type, and — as the endpoint invokes it, with `material_id=None` — all four
document partitions come back as empty chunk lists. -/
theorem c2_general_chat_skips (net : SearchCall → SMRes)
    (llm : String → Option String) (email q sq : String)
    (history : List HistMsg) (cf mid : Option String) :
    ((retrieveTasks email sq "general_chat" cf mid).getD 0 .skip = .skip ∧
     (retrieveTasks email sq "general_chat" cf mid).getD 2 .skip = .skip ∧
     (retrieveTasks email sq "general_chat" cf mid).getD 3 .skip = .skip ∧
     (retrieveTasks email sq "general_chat" cf mid).getD 4 .skip = .skip) ∧
    (∀ queryType : String,
       (retrieveTasks email sq queryType cf mid).getD 5 .skip =
         .call ⟨"User learning style preferences personal context assistant profile",
                profileFilters email, 3⟩) ∧
    ((retrieve_context net llm email q "general_chat" history cf none).course_context = [] ∧
     (retrieve_context net llm email q "general_chat" history cf none).memories = [] ∧
     (retrieve_context net llm email q "general_chat" history cf none).assistant_knowledge = [] ∧
     (retrieve_context net llm email q "general_chat" history cf none).chat_assets = []) := by
  refine ⟨⟨?_, ?_, ?_, ?_⟩, ?_, ?_, ?_, ?_, ?_⟩ <;>
    simp [retrieveTasks, retrieve_context, runTask, List.getD, truthy,
      flatten_v3, resultsList, emptyRes, listTruthy]

/-! ## C3 -/

lemma matches_memoryFilters (email : String) (m : Meta)
    (h : matchesFilter m (memoryFilters email) = true) :
    metaGet m "type" = some "enhanced_memory" ∧ metaGet m "user_id" = some email := by
  simp [matchesFilter, memoryFilters, matchesCond, matchesLeaf] at h
  exact ⟨h.2, h.1⟩

lemma matches_courseFilters (email : String) (cf : Option String) (m : Meta)
    (h : matchesFilter m (courseFilters email cf) = true) :
    metaGet m "type" ≠ some "enhanced_memory" ∧ metaGet m "user_id" = some email := by
  simp [matchesFilter, courseFilters, matchesCond, matchesLeaf] at h
  exact ⟨h.2.1, h.1⟩

/-- C3 (amended): the memory partition filter forces
`type == "enhanced_memory"` and the course search filter forces
`type != "enhanced_memory"` (so those two searches are disjoint by the
filter predicates), every partition's filter list carries the current-user
condition, and every chunk `retrieve_context` returns in the memories
partition indeed carries the `enhanced_memory` tag for any store honouring
the filters; however — the corrected part — the focused-material search
that is merged into `course_context` carries no type condition at all, so
the claimed disjointness of `course_context` from `enhanced_memory`-typed
chunks does not hold (see the counterexample). -/
theorem c3_partition_filter_isolation (email : String) :
    (∀ m : Meta, matchesFilter m (memoryFilters email) = true →
       metaGet m "type" = some "enhanced_memory" ∧ metaGet m "user_id" = some email) ∧
    (∀ (cf : Option String) (m : Meta),
       matchesFilter m (courseFilters email cf) = true →
       metaGet m "type" ≠ some "enhanced_memory" ∧ metaGet m "user_id" = some email) ∧
    (∀ cf, FilterCond.leaf ⟨"user_id", email, false⟩ ∈ courseFilters email cf) ∧
    (FilterCond.leaf ⟨"user_id", email, false⟩ ∈ memoryFilters email) ∧
    (FilterCond.leaf ⟨"user_id", email, false⟩ ∈ assistantFilters email) ∧
    (FilterCond.leaf ⟨"user_id", email, false⟩ ∈ chatFilters email) ∧
    (FilterCond.leaf ⟨"user_id", email, false⟩ ∈ profileFilters email) ∧
    (∀ mid, FilterCond.leaf ⟨"user_id", email, false⟩ ∈ focusedFilters email mid) ∧
    (∀ (store : List StoreDoc) (llm : String → Option String)
       (q queryType : String) (history : List HistMsg) (cf mid : Option String),
       ∀ c ∈ (retrieve_context (smSearch store) llm email q queryType
                history cf mid).memories,
         metaGet c.metadata "type" = some "enhanced_memory") := by
  refine ⟨matches_memoryFilters email, matches_courseFilters email,
    ?_, ?_, ?_, ?_, ?_, ?_, ?_⟩
  · intro cf
    simp [courseFilters]
  · simp [memoryFilters]
  · simp [assistantFilters]
  · simp [chatFilters]
  · simp [profileFilters]
  · intro mid
    simp [focusedFilters]
  · intro store llm q queryType history cf mid c hc
    by_cases hqt : queryType = "general_chat"
    · simp [retrieve_context, retrieveTasks, hqt, runTask, List.getD,
        flatten_v3, resultsList, emptyRes, listTruthy] at hc
    · have hmem : (retrieve_context (smSearch store) llm email q queryType
          history cf mid).memories =
          flatten_v3 (smSearch store
            ⟨(if !history.isEmpty then (contextualize_query llm q history).result else q),
             memoryFilters email, 5⟩) := by
        simp [retrieve_context, retrieveTasks, hqt, runTask, List.getD]
      rw [hmem] at hc
      simp only [flatten_v3, smSearch, resultsList_some] at hc
      rw [List.mem_flatMap] at hc
      obtain ⟨item, hitem, hcitem⟩ := hc
      rw [List.mem_map] at hitem
      obtain ⟨d, hd, rfl⟩ := hitem
      have hmatch : matchesFilter d.metadata (memoryFilters email) = true :=
        (List.mem_filter.mp (List.take_subset _ _ hd)).2
      simp only [flattenItem, List.mem_singleton] at hcitem
      subst hcitem
      simp only []
      rw [metaGet_insert_ne _ _ _ _ (by decide)]
      exact (matches_memoryFilters email d.metadata hmatch).1

/-- C3 witness: a concrete metadata dict passing the memory filter indeed
carries the `enhanced_memory` tag and the user id. -/
theorem c3_witness :
    metaGet [("user_id", some "u@x"), ("type", some "enhanced_memory")] "type" =
        some "enhanced_memory" ∧
      metaGet [("user_id", some "u@x"), ("type", some "enhanced_memory")] "user_id" =
        some "u@x" :=
  (c3_partition_filter_isolation "u@x").1
    [("user_id", some "u@x"), ("type", some "enhanced_memory")] rfl

/-- C3 counterexample: a stored document tagged `enhanced_memory` that
matches the focused-material filter (same user, `source_id` equal to the
requested material id) is returned inside the `course_context` partition —
the per-partition filter predicates alone do not guarantee that
`course_context` chunks have `metadata.type != "enhanced_memory"`. -/
theorem c3_counterexample_focused_leak :
    ¬ (∀ c ∈ (retrieve_context
          (smSearch [⟨some "d1", "secret memory",
            [("user_id", some "u@x"), ("type", some "enhanced_memory"),
             ("source_id", some "doc1")]⟩])
          (fun _ => none) "u@x" "q" "academic_question" [] none
          (some "doc1")).course_context,
        metaGet c.metadata "type" ≠ some "enhanced_memory") := by
  intro hall
  have hmem : (⟨"secret memory",
      [("documentId", some "d1"), ("user_id", some "u@x"),
       ("type", some "enhanced_memory"), ("source_id", some "doc1")]⟩ : Chunk) ∈
      (retrieve_context
        (smSearch [⟨some "d1", "secret memory",
          [("user_id", some "u@x"), ("type", some "enhanced_memory"),
           ("source_id", some "doc1")]⟩])
        (fun _ => none) "u@x" "q" "academic_question" [] none
        (some "doc1")).course_context := by decide
  exact hall _ hmem rfl

/-! ## C5 -/

lemma metaFind_foldl_force (ks : List String) (docMeta : Meta) (m : Meta) (k : String) :
    metaFind (ks.foldl (fun acc key =>
        if truthy (metaGet docMeta key) then metaInsert acc key (metaGet docMeta key)
        else acc) m) k =
      if k ∈ ks ∧ truthy (metaGet docMeta k) = true then some (metaGet docMeta k)
      else metaFind m k := by
  induction ks generalizing m with
  | nil => simp
  | cons key rest ih =>
      rw [List.foldl_cons, ih]
      by_cases hkr : k ∈ rest ∧ truthy (metaGet docMeta k) = true
      · rw [if_pos hkr, if_pos ⟨List.mem_cons_of_mem _ hkr.1, hkr.2⟩]
      · rw [if_neg hkr]
        by_cases hkey : k = key
        · subst hkey
          by_cases ht : truthy (metaGet docMeta k) = true
          · rw [if_pos ht, if_pos ⟨List.mem_cons_self k rest, ht⟩,
              metaFind_insert_self]
          · rw [if_neg ht, if_neg (fun hcon => ht hcon.2)]
        · have hne : ¬(k ∈ key :: rest ∧ truthy (metaGet docMeta k) = true) := by
            rintro ⟨hmem, ht⟩
            rcases List.mem_cons.mp hmem with h | h
            · exact hkey h
            · exact hkr ⟨h, ht⟩
          rw [if_neg hne]
          by_cases ht : truthy (metaGet docMeta key) = true
          · rw [if_pos ht, metaFind_insert_ne _ _ _ _ hkey]
          · rw [if_neg ht]

lemma metaFind_forceAuthoritative (docMeta m : Meta) (k : String) :
    metaFind (forceAuthoritative docMeta m) k =
      if k ∈ authoritativeKeys ∧ truthy (metaGet docMeta k) = true then
        some (metaGet docMeta k)
      else metaFind m k :=
  metaFind_foldl_force authoritativeKeys docMeta m k

lemma metaFind_merged_documentId (docMeta chunkMeta : Meta) (docId : Option String) :
    metaFind (mergedMetaOf docMeta chunkMeta docId) "documentId" = some docId := by
  rw [mergedMetaOf, metaFind_forceAuthoritative, if_neg]
  · exact metaFind_insert_self _ _ _
  · rintro ⟨hmem, _⟩
    revert hmem
    decide

lemma metaFind_merged_ne (docMeta chunkMeta : Meta) (docId : Option String)
    (k : String) (hk : k ≠ "documentId") :
    metaFind (mergedMetaOf docMeta chunkMeta docId) k =
      (metaFind docMeta k <|> metaFind chunkMeta k) := by
  rw [mergedMetaOf, metaFind_forceAuthoritative]
  by_cases h : k ∈ authoritativeKeys ∧ truthy (metaGet docMeta k) = true
  · rw [if_pos h]
    cases hv : metaGet docMeta k with
    | none => rw [hv] at h; simp [truthy] at h
    | some v =>
        have hfind : metaFind docMeta k = some (some v) := Option.join_eq_some.mp hv
        rw [hfind]
        rfl
  · rw [if_neg h, metaFind_insert_ne _ _ _ _ hk, metaFind_append]

/-- C5 (amended): when flattening a grouped search result, each produced
chunk's metadata is — under lookup — the chunk-level metadata as base
overwritten by the document-level metadata for EVERY key the document
level defines (document wins on all conflicts, not only the five
authoritative keys), and `documentId` is set to the document id; on an
authoritative key the document level defines, the behaviour coincides with
the spec's stated rule. -/
theorem c5_flatten_metadata_merge (docMeta chunkMeta : Meta) (docId : Option String) :
    metaFind (mergedMetaOf docMeta chunkMeta docId) "documentId" = some docId ∧
    (∀ k, k ≠ "documentId" →
       metaFind (mergedMetaOf docMeta chunkMeta docId) k =
         (metaFind docMeta k <|> metaFind chunkMeta k)) ∧
    (∀ k, k ≠ "documentId" → k ∈ authoritativeKeys →
       (metaFind docMeta k).isSome = true →
       metaFind (mergedMetaOf docMeta chunkMeta docId) k =
         specAuthoritativeMerge chunkMeta docMeta k) ∧
    (∀ (item : SMItem) (cl : List SMChunk), item.chunks = some cl →
       flattenItem item = cl.map (fun chunk =>
         { content := contentOrText chunk.content chunk.text,
           metadata := mergedMetaOf item.metadata chunk.metadata
             (pyOr item.documentId item.itemId) })) := by
  refine ⟨metaFind_merged_documentId docMeta chunkMeta docId, ?_, ?_, ?_⟩
  · intro k hk
    exact metaFind_merged_ne docMeta chunkMeta docId k hk
  · intro k hk hmem hsome
    rw [metaFind_merged_ne docMeta chunkMeta docId k hk]
    obtain ⟨v, hv⟩ := Option.isSome_iff_exists.mp hsome
    have hcontains : authoritativeKeys.contains k = true := by
      simpa using hmem
    simp [specAuthoritativeMerge, hcontains, hv, hmem]
  · intro item cl h
    simp [flattenItem, h]

/-- C5 witness: at a concrete conflicting authoritative key, the merged
lookup is the document-priority alternative. -/
theorem c5_witness :
    metaFind (mergedMetaOf [("title", some "DocT")] [("title", some "ChunkT")]
        (some "i")) "title" =
      (metaFind [("title", some "DocT")] "title" <|>
       metaFind [("title", some "ChunkT")] "title") :=
  (c5_flatten_metadata_merge [("title", some "DocT")] [("title", some "ChunkT")]
    (some "i")).2.1 "title" (by decide)

/-- C5 counterexample: on the non-authoritative key `"foo"` defined at
both levels, `flatten_v3` keeps the document-level value, while the
claim's rule (overwrite only for the authoritative keys) would keep the
chunk-level value — the claim is false at this input. -/
theorem c5_counterexample_all_keys_overwritten :
    metaFind (mergedMetaOf [("foo", some "docval")] [("foo", some "chunkval")]
        (some "d")) "foo" = some (some "docval") ∧
    specAuthoritativeMerge [("foo", some "chunkval")] [("foo", some "docval")]
        "foo" = some (some "chunkval") ∧
    (flatten_v3 ⟨some [⟨some [⟨some "txt", none, [("foo", some "chunkval")]⟩],
        some "d", none, none, none, [("foo", some "docval")]⟩], none⟩).map
      (fun c => metaGet c.metadata "foo") = [some "docval"] ∧
    some (some "docval") ≠ (some (some "chunkval") : Option (Option String)) :=
  ⟨by decide, by decide, by decide, by decide⟩

/-! ## C4 -/

/-- C4: the grounding resolver tries its id-matching strategies in the
fixed cascade order — exact id match first, then the `ann_att_`, `ann_`,
`drive_file_` prefix variants — stopping at the first hit; in particular,
for a material id with no exact row but a stored row whose id is the
`ann_att_`-prefixed variant, the resolver finds that row and, when it has
content, injects its content into `course_context`. -/
theorem c4_resolution_cascade (db : List Material) (mid : String) :
    (∀ m, db.find? (fun r => r.id == mid) = some m →
       resolveMaterial db mid = some m) ∧
    (db.find? (fun r => r.id == mid) = none →
     pyStartsWith mid "ann_att_" = false →
     ∀ r, db.find? (fun r' => r'.id == "ann_att_" ++ mid) = some r →
       resolveMaterial db mid = some r ∧
       (mid ≠ "" → truthy r.content = true →
         ∀ ctx, primaryEntry r ∈ injectGrounding db (some mid) ctx)) ∧
    (db.find? (fun r => r.id == mid) = none →
     db.find? (fun r' => r'.id == "ann_att_" ++ mid) = none →
     pyStartsWith mid "ann_att_" = false →
     pyStartsWith mid "ann_" = false →
     ∀ r, db.find? (fun r' => r'.id == "ann_" ++ mid) = some r →
       resolveMaterial db mid = some r) := by
  refine ⟨?_, ?_, ?_⟩
  · intro m hm
    simp [resolveMaterial, hm]
  · intro hex h8 r hr
    have hres : resolveMaterial db mid = some r := by
      simp [resolveMaterial, hex, List.filter, h8, List.findSome?_cons, hr]
    refine ⟨hres, ?_⟩
    intro hmid hc ctx
    have htr : truthy (some mid) = true := by simp [truthy, hmid]
    have heq : injectGrounding db (some mid) ctx =
        (injectedAtts db r).reverse ++ primaryEntry r :: ctx := by
      simp [injectGrounding, htr, hres, hc]
    rw [heq]
    exact List.mem_append_right _ (List.mem_cons_self _ _)
  · intro hex hatt h8 h4 r hr
    simp [resolveMaterial, hex, List.filter, h8, h4, List.findSome?_cons, hatt, hr]

/-- C4 witness: the end-to-end scenario of the spec — a 30-character file
id with no direct row, but a stored row carrying the `ann_att_` prefix
variant: the resolver matches it and injects its content. -/
theorem c4_witness :
    resolveMaterial
        [⟨"ann_att_file_abc123def456ghi789jkl_xyz", some "T", some "drive_file",
          none, some "att row content", none, none⟩]
        "file_abc123def456ghi789jkl_xyz" =
      some ⟨"ann_att_file_abc123def456ghi789jkl_xyz", some "T", some "drive_file",
        none, some "att row content", none, none⟩ ∧
    primaryEntry ⟨"ann_att_file_abc123def456ghi789jkl_xyz", some "T",
        some "drive_file", none, some "att row content", none, none⟩ ∈
      injectGrounding
        [⟨"ann_att_file_abc123def456ghi789jkl_xyz", some "T", some "drive_file",
          none, some "att row content", none, none⟩]
        (some "file_abc123def456ghi789jkl_xyz") [] := by
  have h := (c4_resolution_cascade
    [⟨"ann_att_file_abc123def456ghi789jkl_xyz", some "T", some "drive_file",
      none, some "att row content", none, none⟩]
    "file_abc123def456ghi789jkl_xyz").2.1 (by decide) (by decide)
    ⟨"ann_att_file_abc123def456ghi789jkl_xyz", some "T", some "drive_file",
      none, some "att row content", none, none⟩ (by decide)
  exact ⟨h.1, h.2 (by decide) (by decide) []⟩

/-! ## C1 -/

/-- C1 (amended): when a truthy material id resolves to a stored material
with truthy content, the grounding block places the primary document's
entry ahead of every previously retrieved chunk, and the expanded
attachment documents with content are inserted ahead of it (each
`insert(0, ...)` in turn); hence the first element of `course_context` is
the primary document's content exactly when no attachment document with
content was fetched, while ranked search chunks always come after. -/
theorem c1_grounding_injection_order (db : List Material) (mid : String)
    (ctx : List Chunk) (m : Material) (hmid : mid ≠ "")
    (hres : resolveMaterial db mid = some m) (hc : truthy m.content = true) :
    injectGrounding db (some mid) ctx =
      (injectedAtts db m).reverse ++ primaryEntry m :: ctx ∧
    (injectedAtts db m = [] →
      (injectGrounding db (some mid) ctx).head? = some (primaryEntry m)) ∧
    primaryEntry m ∈ injectGrounding db (some mid) ctx := by
  have htr : truthy (some mid) = true := by simp [truthy, hmid]
  have heq : injectGrounding db (some mid) ctx =
      (injectedAtts db m).reverse ++ primaryEntry m :: ctx := by
    simp [injectGrounding, htr, hres, hc]
  refine ⟨heq, ?_, ?_⟩
  · intro hatt
    rw [heq, hatt]
    rfl
  · rw [heq]
    exact List.mem_append_right _ (List.mem_cons_self _ _)

/-- C1 witness: with no attachment rows, the primary document's entry is
the first element after injection. -/
theorem c1_witness :
    (injectGrounding [⟨"m2", some "Doc", none, none, some "primary", none, none⟩]
        (some "m2") []).head? =
      some (primaryEntry ⟨"m2", some "Doc", none, none, some "primary", none, none⟩) :=
  (c1_grounding_injection_order
    [⟨"m2", some "Doc", none, none, some "primary", none, none⟩] "m2" []
    ⟨"m2", some "Doc", none, none, some "primary", none, none⟩
    (by decide) (by decide) (by decide)).2.1 (by decide)

/-- C1 counterexample: the material id resolves to a stored material with
non-empty content, yet after grounding injection the first element of
`course_context` is the expanded attachment document's content, not the
primary document's — the attachments are inserted at index 0 after the
primary entry. -/
theorem c1_counterexample_attachment_first :
    resolveMaterial
        [⟨"m1", some "Main Doc", some "announcement", some "c1",
          some "primary content", some [⟨some "f1", none, none⟩], none⟩,
         ⟨"ann_att_f1", some "Att", some "attachment", none,
          some "attachment content", none, none⟩] "m1" =
      some ⟨"m1", some "Main Doc", some "announcement", some "c1",
        some "primary content", some [⟨some "f1", none, none⟩], none⟩ ∧
    ((injectGrounding
        [⟨"m1", some "Main Doc", some "announcement", some "c1",
          some "primary content", some [⟨some "f1", none, none⟩], none⟩,
         ⟨"ann_att_f1", some "Att", some "attachment", none,
          some "attachment content", none, none⟩]
        (some "m1") []).head?.map (fun c => c.content)) =
      some "attachment content" ∧
    "attachment content" ≠ "primary content" :=
  ⟨by decide, by decide, by decide⟩

/-! ## C9 -/

lemma sourcesStep_new_key (db : List Material) (cc : List Chunk) (pfx : String)
    (item : Chunk) :
    sourcesStep db cc pfx [] item =
      [((computeTitleKey db cc item.metadata).1,
        { title := (computeTitleKey db cc item.metadata).1,
          display := pfx ++ (computeTitleKey db cc item.metadata).1,
          link := linkOf item.metadata,
          snippets := [item.content],
          source_type := metaGetD item.metadata "type" "document",
          material_id := (computeTitleKey db cc item.metadata).2 })] := by
  simp [sourcesStep, assocHasKey]

lemma sourcesStep_pair (db : List Material) (cc : List Chunk) (pfx : String)
    (i1 i2 : Chunk)
    (hk : (computeTitleKey db cc i1.metadata).1 =
          (computeTitleKey db cc i2.metadata).1) :
    [i1, i2].foldl (sourcesStep db cc pfx) [] =
      [((computeTitleKey db cc i1.metadata).1,
        { title := (computeTitleKey db cc i1.metadata).1,
          display := pfx ++ (computeTitleKey db cc i1.metadata).1,
          link := linkOf i1.metadata,
          snippets := [i1.content, i2.content],
          source_type := metaGetD i1.metadata "type" "document",
          material_id := (computeTitleKey db cc i1.metadata).2 })] := by
  rw [List.foldl_cons, List.foldl_cons, List.foldl_nil, sourcesStep_new_key]
  simp [sourcesStep, assocHasKey, ← hk, assocUpdate]

lemma sourcesStep_cap (db : List Material) (cc : List Chunk) (pfx : String)
    (acc : List (String × SourceCard)) (item : Chunk)
    (hacc : ∀ p ∈ acc, p.2.snippets.length ≤ 3) :
    ∀ p ∈ sourcesStep db cc pfx acc item, p.2.snippets.length ≤ 3 := by
  intro p hp
  by_cases h : assocHasKey acc (computeTitleKey db cc item.metadata).1 = true
  · simp only [sourcesStep, h, if_true] at hp
    simp only [assocUpdate, List.mem_map] at hp
    obtain ⟨q, hq, hpq⟩ := hp
    by_cases hqk : (q.1 == (computeTitleKey db cc item.metadata).1) = true
    · rw [if_pos hqk] at hpq
      subst hpq
      by_cases hlen : q.2.snippets.length < 3
      · simp only [if_pos hlen, List.length_append, List.length_singleton]
        omega
      · simp only [if_neg hlen]
        exact hacc q hq
    · simp only [Bool.not_eq_true] at hqk
      rw [hqk] at hpq
      simp only [Bool.false_eq_true, if_false] at hpq
      subst hpq
      exact hacc q hq
  · simp only [Bool.not_eq_true] at h
    simp only [sourcesStep, h, Bool.false_eq_true, if_false] at hp
    rcases List.mem_append.mp hp with hm | hm
    · exact hacc p hm
    · simp only [List.mem_singleton] at hm
      subst hm
      simp

lemma sources_foldl_cap (db : List Material) (cc : List Chunk) (pfx : String)
    (items : List Chunk) :
    ∀ acc, (∀ p ∈ acc, p.2.snippets.length ≤ 3) →
      ∀ p ∈ items.foldl (sourcesStep db cc pfx) acc, p.2.snippets.length ≤ 3 := by
  induction items with
  | nil => intro acc hacc p hp; exact hacc p hp
  | cons i rest ih =>
      intro acc hacc
      rw [List.foldl_cons]
      exact ih _ (sourcesStep_cap db cc pfx acc i hacc)

/-- C9: source aggregation is idempotent under the deduplication key —
aggregating two chunks with the same computed title+course key yields
exactly one SourceCard whose snippets are the two contents in order, the
first occurrence of a key creates the card with a single snippet, and no
card of any aggregation ever carries more than 3 snippets. -/
theorem c9_source_dedup_idempotent (db : List Material) (i1 i2 : Chunk)
    (hk : (computeTitleKey db [i1, i2] i1.metadata).1 =
          (computeTitleKey db [i1, i2] i2.metadata).1) :
    (aggregateSources db [i1, i2] [] [] []).length = 1 ∧
    (∀ p ∈ aggregateSources db [i1, i2] [] [] [],
       p.2.snippets = [i1.content, i2.content]) ∧
    (∀ (cc : List Chunk) (pfx : String) (item : Chunk),
       sourcesStep db cc pfx [] item =
         [((computeTitleKey db cc item.metadata).1,
           { title := (computeTitleKey db cc item.metadata).1,
             display := pfx ++ (computeTitleKey db cc item.metadata).1,
             link := linkOf item.metadata,
             snippets := [item.content],
             source_type := metaGetD item.metadata "type" "document",
             material_id := (computeTitleKey db cc item.metadata).2 })]) ∧
    (∀ courseCtx ak ca mem : List Chunk,
       ∀ p ∈ aggregateSources db courseCtx ak ca mem,
         p.2.snippets.length ≤ 3) := by
  have hagg : aggregateSources db [i1, i2] [] [] [] =
      [i1, i2].foldl (sourcesStep db [i1, i2] "📚 ") [] := by
    simp [aggregateSources]
  refine ⟨?_, ?_, ?_, ?_⟩
  · rw [hagg, sourcesStep_pair db [i1, i2] "📚 " i1 i2 hk]
    rfl
  · rw [hagg, sourcesStep_pair db [i1, i2] "📚 " i1 i2 hk]
    intro p hp
    simp only [List.mem_singleton] at hp
    subst hp
    rfl
  · intro cc pfx item
    exact sourcesStep_new_key db cc pfx item
  · intro courseCtx ak ca mem p hp
    have heq : aggregateSources db courseCtx ak ca mem =
        mem.foldl (sourcesStep db courseCtx "🧠 ")
          (ca.foldl (sourcesStep db courseCtx "📎 ")
            (ak.foldl (sourcesStep db courseCtx "📧 ")
              (courseCtx.foldl (sourcesStep db courseCtx "📚 ") []))) := by
      simp [aggregateSources]
    rw [heq] at hp
    exact sources_foldl_cap db courseCtx "🧠 " mem _
      (sources_foldl_cap db courseCtx "📎 " ca _
        (sources_foldl_cap db courseCtx "📧 " ak _
          (sources_foldl_cap db courseCtx "📚 " courseCtx _ (by simp)))) p hp

/-- C9 witness: two concrete chunks with the same title+course key
aggregate into one card. -/
theorem c9_witness :
    (aggregateSources []
      [⟨"snip1", [("title", some "Lec 3"), ("course_id", some "CS101")]⟩,
       ⟨"snip2", [("title", some "Lec 3"), ("course_id", some "CS101")]⟩]
      [] [] []).length = 1 :=
  (c9_source_dedup_idempotent []
    ⟨"snip1", [("title", some "Lec 3"), ("course_id", some "CS101")]⟩
    ⟨"snip2", [("title", some "Lec 3"), ("course_id", some "CS101")]⟩
    (by decide)).1

/-! ## C6 -/

set_option maxRecDepth 4000 in
lemma systemPrompt_has_hash (qt aw kb il mv : String) :
    '#' ∈ (systemPromptOf qt aw kb il mv).data := by
  unfold systemPromptOf
  split
  · unfold generalChatPrompt
    simp only [String.data_append]
    repeat apply List.mem_append_left
    decide
  · split
    · unfold notebookPrompt
      simp only [String.data_append]
      repeat apply List.mem_append_left
      decide
    · unfold academicPrompt
      simp only [String.data_append]
      repeat apply List.mem_append_left
      decide

/-- C6 (amended): the message list built by `build_prompt` is always one
system message (whose content is never empty — the knowledge base falls
back to the literal `"General academic intelligence."` placeholder when no
context exists), followed by at most the last 10 history turns, then the
current user query as the last part of the final user message; history
roles are NOT preserved verbatim: every non-`"user"` role is rendered as
`"assistant"` (so every non-system role is `user` or `assistant`, and
exactly one system message exists). -/
theorem c6_prompt_message_shape (userQuery : String)
    (rc ak ca mem prof : List Chunk) (history : List HistMsg)
    (attText b64 : Option String) (qt : String) (matId : Option String) :
    ∃ sys : String, sys ≠ "" ∧
      build_prompt userQuery rc ak ca mem prof history attText b64 qt matId =
        ⟨"system", .str sys⟩ ::
          ((history.drop (history.length - 10)).map coerceRole ++
           [⟨"user", .parts (finalQueryParts qt
              (knowledgeBaseOf attText matId rc) b64 userQuery)⟩]) ∧
      (∀ m ∈ (history.drop (history.length - 10)).map coerceRole,
         m.role = "user" ∨ m.role = "assistant") ∧
      (finalQueryParts qt (knowledgeBaseOf attText matId rc) b64 userQuery).getLast? =
        some (.text userQuery) ∧
      knowledgeBaseOf none matId [] = "General academic intelligence." := by
  refine ⟨pyStrip (systemPromptOf qt (assistantWorkspaceOf ak ca)
      (knowledgeBaseOf attText matId rc) (identityLogicOf prof)
      (memoryVaultOf mem)), ?_, ?_, ?_, ?_, ?_⟩
  · exact pyStrip_ne_empty _ '#' (systemPrompt_has_hash qt _ _ _ _) (by decide)
  · simp [build_prompt, historyMessages_eq]
  · intro m hm
    rw [List.mem_map] at hm
    obtain ⟨h0, _, rfl⟩ := hm
    unfold coerceRole
    by_cases hr : (h0.role == "user") = true
    · left
      simp [hr]
    · right
      simp only [Bool.not_eq_true] at hr
      simp [hr]
  · unfold finalQueryParts
    rw [List.getLast?_concat]
  · rfl

/-- C6 witness: at a concrete call with a non-user history turn, the
coerced message role is one of user/assistant. -/
theorem c6_witness :
    (⟨"assistant", MsgContent.str "earlier answer"⟩ : PromptMsg).role = "user" ∨
    (⟨"assistant", MsgContent.str "earlier answer"⟩ : PromptMsg).role = "assistant" := by
  obtain ⟨sys, hsys, heq, hroles, hlast, hfb⟩ :=
    c6_prompt_message_shape "q" [] [] [] [] [] [⟨"assistant", "earlier answer"⟩]
      none none "general_chat" none
  exact hroles ⟨"assistant", .str "earlier answer"⟩ (by decide)

/-- C6 counterexample: a history turn whose role is `"system"` is rendered
with role `"assistant"` — original history roles are not preserved for
every input, falsifying the claim as stated. -/
theorem c6_counterexample_role_not_preserved :
    (build_prompt "q" [] [] [] [] [] [⟨"system", "sneaky"⟩] none none
        "academic_question" none).map (fun m => m.role) =
      ["system", "assistant", "user"] ∧
    "assistant" ≠ "system" :=
  ⟨by rfl, by decide⟩

end Fiwb
